import Mathlib

/-!
Verification of the `lang-cli-rs` command-line front-end (`src/main.rs`).

The program is an argument-parsing and dispatch shell around an external
language-interpreter engine.  We embed `main`, the execution-flag loop and
the two dispatch functions `execute_lang_code` / `execute_lang_file` as pure
Lean functions.  The external collaborators (file system, lexer, parser,
platform API, interpreter) are modelled as an abstract environment `Env` of
functions, universally quantified in the theorems.  Observable behaviour
(stderr lines, the help page, stdout lines, the interpreter invocation) is
recorded as a list of events together with the process exit code; a Rust
`unwrap` panic on a missing value is modelled by the `aborted` result.
-/

namespace LangCli

/-- Embedding of Rust `str::starts_with` (character-level prefix test). -/
def strStartsWith (s pat : String) : Bool :=
  pat.data.isPrefixOf s.data

/-- Process exit status: `ExitCode::SUCCESS` (0) or `ExitCode::FAILURE` (1). -/
inductive ExitCode where
  | success
  | failure

deriving instance DecidableEq, Repr for ExitCode

/-- The execution options accumulated by the flag loop in `main`
(`print_translations`, `print_returned_value`, `warnings`, `lang_args`). -/
structure ExecutionOptions where
  printTranslations : Bool
  printReturnedValue : Bool
  warnings : Bool
  langArgs : Option (List String)

deriving instance DecidableEq, Repr for ExecutionOptions

/-- Initial values of the four mutable locals in `main` (lines 56-59). -/
def defaultOptions : ExecutionOptions :=
  { printTranslations := false
    printReturnedValue := false
    warnings := false
    langArgs := none }

/-- The platform argument passed to `Interpreter::new`; both call sites pass a
freshly constructed `Box::new(DefaultPlatformAPI::new())`. -/
inductive PlatformKind where
  | defaultNew

deriving instance DecidableEq, Repr for PlatformKind

/-- The arguments of an `Interpreter::new` + `interpret_lines` invocation:
directory, file name (passed as `Some(..)` at both call sites), the platform
provider, the lang args, and the interpreted code.  (The third `None`
argument of `Interpreter::new`, identical at both call sites, is omitted.) -/
structure InterpreterCall where
  directory : String
  fileName : Option String
  platform : PlatformKind
  langArgs : Option (List String)
  code : String

deriving instance DecidableEq, Repr for InterpreterCall

/-- Observable events of a run: an `eprintln!` line, the help page
(`print_help`), a `println!` line, or an interpreter invocation. -/
inductive Event where
  | errMsg (line : String)
  | help
  | outLine (line : String)
  | interpret (call : InterpreterCall)

deriving instance DecidableEq, Repr for Event

/-- Result of a process run: normal termination with events and an exit
code, or an abort (a Rust `unwrap` panic) after the given events. -/
inductive ProcResult where
  | exit (events : List Event) (code : ExitCode)
  | aborted (events : List Event)

deriving instance DecidableEq, Repr for ProcResult

/-- The external collaborators, modelled as an abstract environment.

`readFile f` is `File::open` + `read_to_end` + `String::from_utf8_lossy`:
either the lossily decoded contents or the `Display` text of the I/O error.
`currentDir` is `env::current_dir()`.  `getLangPath` / `getLangFileName`
are `DefaultPlatformAPI::get_lang_path` / `get_lang_file_name` (fallible:
`None` makes the program's `unwrap` panic).  `parseLines` is
`Parser::new().parse_lines` (fallible), returning the printed AST.
`readTokens` is `Lexer::new().read_tokens`, each token already rendered by
`to_string`.  `interpretFails` records whether interpretation of the given
code fails internally; the core never consults it (the return value of
`interpret_lines` is discarded in the source). -/
structure Env where
  readFile : String → Except String String
  currentDir : String
  getLangPath : String → Option String
  getLangFileName : String → Option String
  parseLines : String → Option String
  readTokens : String → List String
  interpretFails : String → Bool

/-- `eprintln!("Unknown COMMAND \"{}\"", arg)` -/
def unknownCommandMsg (arg : String) : String :=
  "Unknown COMMAND \"" ++ arg ++ "\""

/-- `eprintln!("Unknown EXECUTION_ARG \"{}\"", arg)` -/
def unknownExecutionArgMsg (arg : String) : String :=
  "Unknown EXECUTION_ARG \"" ++ arg ++ "\""

/-- `eprintln!("FILE can not be read {e}")` -/
def fileReadErrMsg (e : String) : String :=
  "FILE can not be read " ++ e

/-- The execution-flag loop of `main` (lines 61-80): scans the tail of argv
after the mode positionals, setting the boolean options, and on the first
`-langArgs` / `--` delimiter stores the remaining entries verbatim as
`langArgs` and stops.  An unrecognized token is returned as an error
(the program prints `Unknown EXECUTION_ARG`, help, and exits 1). -/
def parseExecArgs : ExecutionOptions → List String → Except String ExecutionOptions
  | opts, [] => .ok opts
  | opts, arg :: rest =>
    if arg = "-printTranslations" then
      parseExecArgs { opts with printTranslations := true } rest
    else if arg = "-printReturnedValue" then
      parseExecArgs { opts with printReturnedValue := true } rest
    else if arg = "-warnings" then
      parseExecArgs { opts with warnings := true } rest
    else if arg = "-langArgs" ∨ arg = "--" then
      .ok { opts with langArgs := some rest }
    else
      .error arg

/-- Embedding of `execute_lang_code` (lines 198-218): the interpreter is
constructed with the current working directory, `Some("")` as file name, a
fresh `DefaultPlatformAPI`, and the lang args; the code string is
interpreted verbatim and the process exits successfully. -/
def executeLangCode (env : Env) (langCode : String) (opts : ExecutionOptions) : ProcResult :=
  .exit [.interpret ⟨env.currentDir, some "", .defaultNew, opts.langArgs, langCode⟩] .success

/-- Embedding of `execute_lang_file` (lines 220-262): read the file (on
failure print `FILE can not be read …` and exit 1, with no help page);
derive the directory and file name through the platform API (`unwrap`:
absence aborts); construct the interpreter and interpret the decoded
contents; exit successfully. -/
def executeLangFile (env : Env) (langFile : String) (opts : ExecutionOptions) : ProcResult :=
  match env.readFile langFile with
  | .error e => .exit [.errMsg (fileReadErrMsg e)] .failure
  | .ok code =>
    match env.getLangPath langFile, env.getLangFileName langFile with
    | some path, some fileName =>
        .exit [.interpret ⟨path, some fileName, .defaultNew, opts.langArgs, code⟩] .success
    | _, _ => .aborted []

/-- The `-printTokens` branch of `main` (lines 90-123): exactly one file
argument is required (otherwise an arity error, help, exit 1); the file is
read (failure: `FILE can not be read …`, exit 1, no help) and the token
stream is printed joined by newlines; exit 0. -/
def printTokensMode (env : Env) (rest : List String) : ProcResult :=
  match rest with
  | [file] =>
    match env.readFile file with
    | .error e => .exit [.errMsg (fileReadErrMsg e)] .failure
    | .ok code =>
        .exit [.outLine (String.intercalate "\n" (env.readTokens code))] .success
  | _ => .exit [.errMsg "\"printTokens\" requires exactly one file argument", .help] .failure

/-- The `-printAST` branch of `main` (lines 125-155): exactly one file
argument is required (otherwise an arity error, help, exit 1); the file is
read (failure: `FILE can not be read …`, exit 1, no help); the parse result
is `unwrap`ped — `None` aborts the process — and the AST is printed; exit 0. -/
def printASTMode (env : Env) (rest : List String) : ProcResult :=
  match rest with
  | [file] =>
    match env.readFile file with
    | .error e => .exit [.errMsg (fileReadErrMsg e)] .failure
    | .ok code =>
      match env.parseLines code with
      | some ast => .exit [.outLine ast] .success
      | none => .aborted []
  | _ => .exit [.errMsg "\"printAST\" requires exactly one file argument", .help] .failure

/-- The execution branch of `main` (lines 25-87), taken when
`!args[0].starts_with("-") || args[0] == "-e" || args[0].starts_with("--")
|| args[0].starts_with("-h")`:
an argument starting with `-h` prints help and exits 0; an argument
starting with `--` is either exactly `--help` (help, exit 0) or an unknown
command (error, help, exit 1); `-e` without a following argument is a
missing-CODE error; otherwise the flag tail (starting at argv[1] for file
execution, argv[2] for `-e`) is parsed and the matching dispatch function
is invoked. -/
def execBranch (env : Env) (arg0 : String) (rest : List String) : ProcResult :=
  if strStartsWith arg0 "-h" then
    .exit [.help] .success
  else if strStartsWith arg0 "--" then
    if arg0 = "--help" then
      .exit [.help] .success
    else
      .exit [.errMsg (unknownCommandMsg arg0), .help] .failure
  else if arg0 = "-e" then
    match rest with
    | [] => .exit [.errMsg "CODE argument for \"-e\" is missing", .help] .failure
    | code :: tail =>
      match parseExecArgs defaultOptions tail with
      | .error tok => .exit [.errMsg (unknownExecutionArgMsg tok), .help] .failure
      | .ok opts => executeLangCode env code opts
  else
    match parseExecArgs defaultOptions rest with
    | .error tok => .exit [.errMsg (unknownExecutionArgMsg tok), .help] .failure
    | .ok opts => executeLangFile env arg0 opts

/-- Embedding of `main` (after stripping the binary name): empty argv prints
help and exits 0; argv[0] entering the big disjunction goes to the
execution branch; otherwise argv[0] is matched against `-printTokens` and
`-printAST`, and anything else is an unknown command (error, help, exit 1). -/
def runMain (env : Env) (args : List String) : ProcResult :=
  match args with
  | [] => .exit [.help] .success
  | arg0 :: rest =>
    if !strStartsWith arg0 "-" || arg0 == "-e" ||
        strStartsWith arg0 "--" || strStartsWith arg0 "-h" then
      execBranch env arg0 rest
    else if arg0 = "-printTokens" then
      printTokensMode env rest
    else if arg0 = "-printAST" then
      printASTMode env rest
    else
      .exit [.errMsg (unknownCommandMsg arg0), .help] .failure

/-- A token is one of the three recognized boolean execution flags. -/
def isBoolFlag (a : String) : Prop :=
  a = "-printTranslations" ∨ a = "-printReturnedValue" ∨ a = "-warnings"

/-- A token is one of the two lang-args delimiters. -/
def isDelim (a : String) : Prop :=
  a = "-langArgs" ∨ a = "--"

instance (a : String) : Decidable (isBoolFlag a) := by
  unfold isBoolFlag; infer_instance

instance (a : String) : Decidable (isDelim a) := by
  unfold isDelim; infer_instance

/-- Specification-side summary of what a run of the flag loop over a list of
recognized boolean flags does to the options: each boolean field becomes
true exactly when the corresponding flag occurs, and `langArgs` is kept. -/
def applyFlags (opts : ExecutionOptions) (l : List String) : ExecutionOptions where
  printTranslations := opts.printTranslations || l.contains "-printTranslations"
  printReturnedValue := opts.printReturnedValue || l.contains "-printReturnedValue"
  warnings := opts.warnings || l.contains "-warnings"
  langArgs := opts.langArgs

/-- A concrete environment used to instantiate the theorems:
`good.lang` holds code that parses, `ast.lang` holds code whose parse is
absent, any other path fails to read. -/
def sampleEnv : Env where
  readFile := fun f =>
    if f = "good.lang" then Except.ok "fn.println(42)"
    else if f = "ast.lang" then Except.ok "bad"
    else Except.error "No such file or directory (os error 2)"
  currentDir := "/home/user"
  getLangPath := fun _ => some "/home/user/scripts"
  getLangFileName := fun f => some f
  parseLines := fun c => if c = "bad" then none else some ("AST(" ++ c ++ ")")
  readTokens := fun c => [c, "EOF"]
  interpretFails := fun _ => false

/-! ### Helper lemmas about `strStartsWith` -/

theorem startsWith_dash_of_startsWith {s : String} {p : List Char}
    (h : List.isPrefixOf ('-' :: p) s.data = true) :
    strStartsWith s "-" = true := by
  unfold strStartsWith
  rw [show "-".data = ['-'] from rfl]
  cases hd : s.data with
  | nil => rw [hd] at h; simp [List.isPrefixOf] at h
  | cons c rest =>
    rw [hd] at h
    simp [List.isPrefixOf_cons₂] at h ⊢
    exact h.1

theorem not_startsWith_dh_of_dd {s : String} (h : strStartsWith s "--" = true) :
    strStartsWith s "-h" = false := by
  unfold strStartsWith at h ⊢
  rw [show "--".data = ['-', '-'] from rfl] at h
  rw [show "-h".data = ['-', 'h'] from rfl]
  cases hd : s.data with
  | nil => rw [hd] at h; simp [List.isPrefixOf] at h
  | cons c rest =>
    rw [hd] at h
    cases rest with
    | nil => simp [List.isPrefixOf] at h
    | cons c2 rest2 =>
      simp [List.isPrefixOf_cons₂] at h ⊢
      intro _ hc
      rw [← hc] at h
      exact absurd h.2 (by decide)

theorem no_dash_facts {s : String} (h : strStartsWith s "-" = false) :
    strStartsWith s "-h" = false ∧ strStartsWith s "--" = false ∧ s ≠ "-e" := by
  refine ⟨?_, ?_, ?_⟩
  · cases hc : strStartsWith s "-h" with
    | false => rfl
    | true =>
      exact absurd (startsWith_dash_of_startsWith (p := ['h']) hc) (by rw [h]; simp)
  · cases hc : strStartsWith s "--" with
    | false => rfl
    | true =>
      exact absurd (startsWith_dash_of_startsWith (p := ['-']) hc) (by rw [h]; simp)
  · intro he
    subst he
    exact absurd h (by decide)

/-! ### Helper lemmas about the execution-flag loop -/

theorem applyFlags_nil (opts : ExecutionOptions) : applyFlags opts [] = opts := by
  cases opts
  simp [applyFlags]

theorem parseExecArgs_delim {d : String} (hd : isDelim d)
    (opts : ExecutionOptions) (post : List String) :
    parseExecArgs opts (d :: post) = .ok { opts with langArgs := some post } := by
  rcases hd with h | h <;> subst h <;> rfl

theorem parse_step_pt (opts : ExecutionOptions) (rest : List String) :
    parseExecArgs opts ("-printTranslations" :: rest) =
      parseExecArgs { opts with printTranslations := true } rest := rfl

theorem parse_step_prv (opts : ExecutionOptions) (rest : List String) :
    parseExecArgs opts ("-printReturnedValue" :: rest) =
      parseExecArgs { opts with printReturnedValue := true } rest := rfl

theorem parse_step_w (opts : ExecutionOptions) (rest : List String) :
    parseExecArgs opts ("-warnings" :: rest) =
      parseExecArgs { opts with warnings := true } rest := rfl

theorem parse_step_err {a : String} (h1 : a ≠ "-printTranslations")
    (h2 : a ≠ "-printReturnedValue") (h3 : a ≠ "-warnings")
    (h4 : ¬ isDelim a) (opts : ExecutionOptions) (rest : List String) :
    parseExecArgs opts (a :: rest) = .error a := by
  have h4' : ¬(a = "-langArgs" ∨ a = "--") := h4
  simp [parseExecArgs, h1, h2, h3, h4']

theorem parse_append_flags (pre : List String) (h : ∀ a ∈ pre, isBoolFlag a)
    (opts : ExecutionOptions) (tail : List String) :
    parseExecArgs opts (pre ++ tail) = parseExecArgs (applyFlags opts pre) tail := by
  induction pre generalizing opts with
  | nil => rw [applyFlags_nil]; rfl
  | cons a pre ih =>
    have ha : isBoolFlag a := h a (List.mem_cons_self a pre)
    have hpre : ∀ x ∈ pre, isBoolFlag x := fun x hx => h x (List.mem_cons_of_mem _ hx)
    have hcongr : ∀ o₁ o₂ : ExecutionOptions, o₁ = o₂ →
        parseExecArgs o₁ tail = parseExecArgs o₂ tail := fun _ _ he => by rw [he]
    rcases ha with h1 | h1 | h1 <;> subst h1
    · rw [List.cons_append, parse_step_pt, ih hpre]
      refine hcongr _ _ ?_
      cases opts
      simp [applyFlags, List.contains_cons]
    · rw [List.cons_append, parse_step_prv, ih hpre]
      refine hcongr _ _ ?_
      cases opts
      simp [applyFlags, List.contains_cons]
    · rw [List.cons_append, parse_step_w, ih hpre]
      refine hcongr _ _ ?_
      cases opts
      simp [applyFlags, List.contains_cons]

theorem parse_map_langArgs (tail : List String) :
    ∀ o₁ o₂ : ExecutionOptions, o₁.langArgs = o₂.langArgs →
      (parseExecArgs o₁ tail).map ExecutionOptions.langArgs =
        (parseExecArgs o₂ tail).map ExecutionOptions.langArgs := by
  induction tail with
  | nil => intro o₁ o₂ h; simp [parseExecArgs, Except.map, h]
  | cons a rest ih =>
    intro o₁ o₂ h
    by_cases h1 : a = "-printTranslations"
    · subst h1; rw [parse_step_pt, parse_step_pt]; exact ih _ _ h
    by_cases h2 : a = "-printReturnedValue"
    · subst h2; rw [parse_step_prv, parse_step_prv]; exact ih _ _ h
    by_cases h3 : a = "-warnings"
    · subst h3; rw [parse_step_w, parse_step_w]; exact ih _ _ h
    by_cases h4 : isDelim a
    · rw [parseExecArgs_delim h4, parseExecArgs_delim h4]
      simp [Except.map]
    · rw [parse_step_err h1 h2 h3 h4, parse_step_err h1 h2 h3 h4]

theorem parse_no_delim (l : List String) (hl : ∀ a ∈ l, ¬ isDelim a) :
    ∀ opts₀ opts : ExecutionOptions,
      parseExecArgs opts₀ l = .ok opts → opts.langArgs = opts₀.langArgs := by
  induction l with
  | nil =>
    intro o₀ o h
    simp [parseExecArgs] at h
    rw [← h]
  | cons a rest ih =>
    intro o₀ o h
    have ha : ¬ isDelim a := hl a (List.mem_cons_self a rest)
    have hrest : ∀ x ∈ rest, ¬ isDelim x := fun x hx => hl x (List.mem_cons_of_mem _ hx)
    by_cases h1 : a = "-printTranslations"
    · subst h1; rw [parse_step_pt] at h
      have h' := ih hrest _ _ h
      exact h'
    by_cases h2 : a = "-printReturnedValue"
    · subst h2; rw [parse_step_prv] at h
      have h' := ih hrest _ _ h
      exact h'
    by_cases h3 : a = "-warnings"
    · subst h3; rw [parse_step_w] at h
      have h' := ih hrest _ _ h
      exact h'
    · rw [parse_step_err h1 h2 h3 ha] at h
      exact absurd h (by simp)

/-! ### Helper lemmas reducing `runMain` on the various argv shapes -/

theorem runMain_e_ok (env : Env) (code : String) (tail : List String)
    (opts : ExecutionOptions) (h : parseExecArgs defaultOptions tail = .ok opts) :
    runMain env ("-e" :: code :: tail) = executeLangCode env code opts := by
  simp [runMain, execBranch, (by decide : strStartsWith "-e" "-h" = false),
    (by decide : strStartsWith "-e" "--" = false), h]

theorem runMain_e_err (env : Env) (code : String) (tail : List String)
    (tok : String) (h : parseExecArgs defaultOptions tail = .error tok) :
    runMain env ("-e" :: code :: tail) =
      .exit [.errMsg (unknownExecutionArgMsg tok), .help] .failure := by
  simp [runMain, execBranch, (by decide : strStartsWith "-e" "-h" = false),
    (by decide : strStartsWith "-e" "--" = false), h]

theorem runMain_file_ok (env : Env) (f : String) (tail : List String)
    (opts : ExecutionOptions) (hf : strStartsWith f "-" = false)
    (h : parseExecArgs defaultOptions tail = .ok opts) :
    runMain env (f :: tail) = executeLangFile env f opts := by
  obtain ⟨hdh, hdd, hne⟩ := no_dash_facts hf
  simp [runMain, execBranch, hf, hdh, hdd, hne, h]

theorem runMain_printTokens (env : Env) (rest : List String) :
    runMain env ("-printTokens" :: rest) = printTokensMode env rest := by
  simp [runMain, (by decide : strStartsWith "-printTokens" "-" = true),
    (by decide : strStartsWith "-printTokens" "--" = false),
    (by decide : strStartsWith "-printTokens" "-h" = false),
    (by decide : (("-printTokens" : String) == "-e") = false)]

theorem runMain_printAST (env : Env) (rest : List String) :
    runMain env ("-printAST" :: rest) = printASTMode env rest := by
  simp [runMain, (by decide : strStartsWith "-printAST" "-" = true),
    (by decide : strStartsWith "-printAST" "--" = false),
    (by decide : strStartsWith "-printAST" "-h" = false),
    (by decide : (("-printAST" : String) == "-e") = false),
    (by decide : ("-printAST" : String) ≠ "-printTokens")]

/-! ### Claim theorems -/

/-- C2: for every non-empty argv whose first entry starts with the two
characters `-h`, the program prints the help page and exits with code 0,
regardless of the rest of argv[0] and of the remaining entries. -/
theorem help_for_dash_h_arguments (env : Env) (arg0 : String) (rest : List String)
    (h : strStartsWith arg0 "-h" = true) :
    runMain env (arg0 :: rest) = .exit [.help] .success := by
  simp [runMain, execBranch, h]

theorem help_for_dash_h_arguments_witness :
    strStartsWith "-hello" "-h" = true ∧
      runMain sampleEnv ["-hello", "--", "-e"] = .exit [.help] .success :=
  ⟨by decide, help_for_dash_h_arguments sampleEnv "-hello" ["--", "-e"] (by decide)⟩

/-- C4: for every argv whose first entry begins with `--` and is not exactly
`--help`, the process writes the literal `Unknown COMMAND "<argv[0]>"` to
standard error, prints the help page and exits 1; for argv[0] exactly
`--help` it prints help and exits 0 with nothing on standard error. -/
theorem unknown_double_dash_command (env : Env) (arg0 : String) (rest : List String)
    (h : strStartsWith arg0 "--" = true) :
    (arg0 ≠ "--help" →
      runMain env (arg0 :: rest) =
        .exit [.errMsg (unknownCommandMsg arg0), .help] .failure) ∧
    (arg0 = "--help" → runMain env (arg0 :: rest) = .exit [.help] .success) := by
  have hdh := not_startsWith_dh_of_dd h
  constructor
  · intro hne
    simp [runMain, execBranch, h, hdh, hne]
  · intro he
    subst he
    simp [runMain, execBranch, (by decide : strStartsWith "--help" "-h" = false),
      (by decide : strStartsWith "--help" "--" = true)]

theorem unknown_double_dash_command_witness :
    strStartsWith "--foo" "--" = true ∧ ("--foo" : String) ≠ "--help" ∧
      runMain sampleEnv ["--foo"] =
        .exit [.errMsg (unknownCommandMsg "--foo"), .help] .failure :=
  ⟨by decide, by decide,
    (unknown_double_dash_command sampleEnv "--foo" [] (by decide)).1 (by decide)⟩

/-- C7: in ExecuteCode mode the interpreter is constructed with the current
working directory as directory, the empty string as file name, a fresh
default platform provider, and the parsed langArgs, and the code string is
interpreted verbatim; in particular `-e CODE` with no further arguments
delivers the default options (langArgs absent). -/
theorem executeLangCode_interpreter_construction (env : Env) (langCode : String)
    (opts : ExecutionOptions) :
    executeLangCode env langCode opts =
      .exit [.interpret ⟨env.currentDir, some "", .defaultNew, opts.langArgs, langCode⟩]
        .success ∧
    runMain env ["-e", langCode] =
      .exit [.interpret ⟨env.currentDir, some "", .defaultNew, none, langCode⟩]
        .success := by
  constructor
  · rfl
  · rw [runMain_e_ok env langCode [] defaultOptions rfl]
    rfl

/-- C1: in ExecuteCode and ExecuteFile modes, when the execution-flag region
contains a `-langArgs` or `--` delimiter (i.e. every token before it is a
recognized boolean flag), `langArgs` is exactly the suffix of argv strictly
after the first delimiter, in order and verbatim, and no entry after the
delimiter is interpreted as a flag (the suffix `post` is arbitrary); when
the region contains no delimiter, `langArgs` stays absent. -/
theorem langArgs_suffix_after_delimiter
    (env : Env) (code f fcode p fn d : String) (pre post l : List String)
    (hd : isDelim d)
    (hpre : ∀ a ∈ pre, isBoolFlag a)
    (hf : strStartsWith f "-" = false)
    (hread : env.readFile f = .ok fcode)
    (hp : env.getLangPath f = some p)
    (hn : env.getLangFileName f = some fn)
    (hl : ∀ a ∈ l, ¬ isDelim a) :
    (∃ opts, parseExecArgs defaultOptions (pre ++ d :: post) = .ok opts ∧
        opts.langArgs = some post) ∧
    runMain env ("-e" :: code :: (pre ++ d :: post)) =
      .exit [.interpret ⟨env.currentDir, some "", .defaultNew, some post, code⟩]
        .success ∧
    runMain env (f :: (pre ++ d :: post)) =
      .exit [.interpret ⟨p, some fn, .defaultNew, some post, fcode⟩] .success ∧
    (∀ opts, parseExecArgs defaultOptions l = .ok opts → opts.langArgs = none) := by
  have hparse : parseExecArgs defaultOptions (pre ++ d :: post) =
      .ok { applyFlags defaultOptions pre with langArgs := some post } := by
    rw [parse_append_flags pre hpre, parseExecArgs_delim hd]
  refine ⟨⟨_, hparse, rfl⟩, ?_, ?_, ?_⟩
  · rw [runMain_e_ok env code _ _ hparse]
    rfl
  · rw [runMain_file_ok env f _ _ hf hparse]
    simp [executeLangFile, hread, hp, hn]
  · intro opts hok
    have h' := parse_no_delim l hl defaultOptions opts hok
    simpa [defaultOptions] using h'

theorem langArgs_suffix_after_delimiter_witness :
    isDelim "--" ∧ strStartsWith "good.lang" "-" = false ∧
    sampleEnv.readFile "good.lang" = .ok "fn.println(42)" ∧
    runMain sampleEnv ["-e", "x", "-warnings", "--", "a", "--"] =
      .exit [.interpret ⟨"/home/user", some "", .defaultNew, some ["a", "--"], "x"⟩]
        .success :=
  ⟨by decide, by decide, rfl,
    (langArgs_suffix_after_delimiter sampleEnv "x" "good.lang" "fn.println(42)"
      "/home/user/scripts" "good.lang" "--" ["-warnings"] ["a", "--"]
      ["-printTranslations"] (by decide) (by decide) (by decide) rfl rfl rfl
      (by decide)).2.1⟩

/-- C3: in ExecuteCode mode, and in ExecuteFile mode once the file has been
read successfully (and the platform-API derivations succeed), the process
exits with code 0 after invoking the interpreter.  The environment — in
particular its `interpretFails` component, which records interpreter-internal
failure — is universally quantified and never consulted: the core never turns
an interpretation error into a non-zero exit. -/
theorem exit_success_after_interpretation
    (env : Env) (langCode langFile fcode p fn : String) (opts : ExecutionOptions)
    (hread : env.readFile langFile = .ok fcode)
    (hp : env.getLangPath langFile = some p)
    (hn : env.getLangFileName langFile = some fn) :
    (∃ call, executeLangCode env langCode opts = .exit [.interpret call] .success) ∧
    (∃ call, executeLangFile env langFile opts = .exit [.interpret call] .success) := by
  refine ⟨⟨_, rfl⟩, ⟨⟨p, some fn, .defaultNew, opts.langArgs, fcode⟩, ?_⟩⟩
  simp [executeLangFile, hread, hp, hn]

theorem exit_success_after_interpretation_witness :
    sampleEnv.readFile "good.lang" = .ok "fn.println(42)" ∧
    sampleEnv.getLangPath "good.lang" = some "/home/user/scripts" ∧
    (∃ call, executeLangFile sampleEnv "good.lang" defaultOptions =
        .exit [.interpret call] .success) :=
  ⟨rfl, rfl,
    (exit_success_after_interpretation sampleEnv "c" "good.lang" "fn.println(42)"
      "/home/user/scripts" "good.lang" defaultOptions rfl rfl rfl).2⟩

/-- C5: in PrintAST mode, when the parser returns an absent result for the
file's text the process aborts (a failure indication, never a successful
exit); an AST is printed with exit code 0 exactly when the parse result is
present. -/
theorem printAST_parse_failure_aborts (env : Env) (f fcode : String)
    (hread : env.readFile f = .ok fcode) :
    (env.parseLines fcode = none → runMain env ["-printAST", f] = .aborted []) ∧
    (∀ ast, env.parseLines fcode = some ast →
      runMain env ["-printAST", f] = .exit [.outLine ast] .success) ∧
    (∀ evs, runMain env ["-printAST", f] = .exit evs ExitCode.success →
      ∃ ast, env.parseLines fcode = some ast) := by
  have hred : runMain env ["-printAST", f] = printASTMode env [f] :=
    runMain_printAST env [f]
  refine ⟨?_, ?_, ?_⟩
  · intro hnone
    rw [hred]
    simp [printASTMode, hread, hnone]
  · intro ast hast
    rw [hred]
    simp [printASTMode, hread, hast]
  · intro evs hexit
    rcases hc : env.parseLines fcode with _ | ast
    · rw [hred] at hexit
      simp [printASTMode, hread, hc] at hexit
    · exact ⟨ast, rfl⟩

theorem printAST_parse_failure_aborts_witness :
    sampleEnv.readFile "ast.lang" = .ok "bad" ∧ sampleEnv.parseLines "bad" = none ∧
    runMain sampleEnv ["-printAST", "ast.lang"] = .aborted [] :=
  ⟨rfl, rfl, (printAST_parse_failure_aborts sampleEnv "ast.lang" "bad" rfl).1 rfl⟩

/-- C6: in every mode that reads a file (`-printTokens`, `-printAST`,
ExecuteFile), a failure to open or fully read the file produces the exact
stderr line `FILE can not be read <detail>`, exit code 1, and no help page. -/
theorem file_read_failure_reports_and_fails (env : Env) (f e : String)
    (hread : env.readFile f = .error e) (hf : strStartsWith f "-" = false) :
    runMain env ["-printTokens", f] = .exit [.errMsg (fileReadErrMsg e)] .failure ∧
    runMain env ["-printAST", f] = .exit [.errMsg (fileReadErrMsg e)] .failure ∧
    (∀ opts, executeLangFile env f opts = .exit [.errMsg (fileReadErrMsg e)] .failure) ∧
    runMain env [f] = .exit [.errMsg (fileReadErrMsg e)] .failure := by
  have hexec : ∀ opts, executeLangFile env f opts =
      .exit [.errMsg (fileReadErrMsg e)] .failure := by
    intro opts
    simp [executeLangFile, hread]
  refine ⟨?_, ?_, hexec, ?_⟩
  · rw [runMain_printTokens]
    simp [printTokensMode, hread]
  · rw [runMain_printAST]
    simp [printASTMode, hread]
  · rw [runMain_file_ok env f [] defaultOptions hf rfl]
    exact hexec defaultOptions

theorem file_read_failure_reports_and_fails_witness :
    sampleEnv.readFile "missing.lang" =
      .error "No such file or directory (os error 2)" ∧
    runMain sampleEnv ["-printTokens", "missing.lang"] =
      .exit [.errMsg (fileReadErrMsg "No such file or directory (os error 2)")]
        .failure :=
  ⟨rfl,
    (file_read_failure_reports_and_fails sampleEnv "missing.lang"
      "No such file or directory (os error 2)" rfl (by decide)).1⟩

/-- C8: for argv[0] equal to `-printTokens` or `-printAST`, any arity other
than exactly one positional file argument yields the arity error message on
standard error, the help page, and exit code 1. -/
theorem wrong_arity_diagnostic (env : Env) (rest : List String)
    (h : rest.length ≠ 1) :
    runMain env ("-printTokens" :: rest) =
      .exit [.errMsg "\"printTokens\" requires exactly one file argument", .help]
        .failure ∧
    runMain env ("-printAST" :: rest) =
      .exit [.errMsg "\"printAST\" requires exactly one file argument", .help]
        .failure := by
  rw [runMain_printTokens, runMain_printAST]
  rcases rest with _ | ⟨x, _ | ⟨y, zs⟩⟩
  · exact ⟨rfl, rfl⟩
  · exact absurd rfl h
  · exact ⟨rfl, rfl⟩

theorem wrong_arity_diagnostic_witness :
    ([] : List String).length ≠ 1 ∧
    runMain sampleEnv ["-printTokens"] =
      .exit [.errMsg "\"printTokens\" requires exactly one file argument", .help]
        .failure :=
  ⟨by decide, (wrong_arity_diagnostic sampleEnv [] (by decide)).1⟩

/-- C9: in the execution-flag region, the recognized boolean flags are
idempotent and order-irrelevant — two flag lists with the same underlying
set of flags produce identical `ExecutionOptions` — and adding or removing
any number of recognized boolean flags before the rest of the region leaves
the delivered `langArgs` unchanged. -/
theorem boolean_flags_idempotent_commutative
    (opts : ExecutionOptions) (l₁ l₂ l tail : List String)
    (h₁ : ∀ a ∈ l₁, isBoolFlag a) (h₂ : ∀ a ∈ l₂, isBoolFlag a)
    (hmem₁ : ∀ b ∈ l₁, b ∈ l₂) (hmem₂ : ∀ b ∈ l₂, b ∈ l₁)
    (hl : ∀ a ∈ l, isBoolFlag a) :
    parseExecArgs opts (l₁ ++ tail) = parseExecArgs opts (l₂ ++ tail) ∧
    (parseExecArgs opts (l ++ tail)).map ExecutionOptions.langArgs =
      (parseExecArgs opts tail).map ExecutionOptions.langArgs := by
  constructor
  · rw [parse_append_flags l₁ h₁, parse_append_flags l₂ h₂]
    have hmem : ∀ b : String, b ∈ l₁ ↔ b ∈ l₂ := fun b => ⟨hmem₁ b, hmem₂ b⟩
    have happ : applyFlags opts l₁ = applyFlags opts l₂ := by
      cases opts
      simp [applyFlags, List.contains, hmem]
    rw [happ]
  · rw [parse_append_flags l hl]
    exact parse_map_langArgs tail _ _ rfl

theorem boolean_flags_idempotent_commutative_witness :
    parseExecArgs defaultOptions
        (["-warnings", "-warnings", "-printTranslations"] ++ ["--", "z"]) =
      parseExecArgs defaultOptions
        (["-printTranslations", "-warnings"] ++ ["--", "z"]) ∧
    (parseExecArgs defaultOptions
        (["-printReturnedValue"] ++ ["--", "z"])).map ExecutionOptions.langArgs =
      (parseExecArgs defaultOptions ["--", "z"]).map ExecutionOptions.langArgs :=
  boolean_flags_idempotent_commutative defaultOptions
    ["-warnings", "-warnings", "-printTranslations"]
    ["-printTranslations", "-warnings"] ["-printReturnedValue"] ["--", "z"]
    (by decide) (by decide) (by decide) (by decide) (by decide)

/-- C10: for argv of the form `-e CODE tail…`, the CODE entry is taken
verbatim and never inspected by the execution-flag parser (it is universally
quantified, so it may equal `-printTranslations`, `-langArgs`, `--`, …);
flag scanning begins strictly at argv[2], so the outcome is determined by
the tail alone, with CODE appearing only as the interpreted source. -/
theorem inline_code_verbatim (env : Env) (code : String) (tail : List String) :
    (∀ opts, parseExecArgs defaultOptions tail = .ok opts →
      runMain env ("-e" :: code :: tail) =
        .exit [.interpret ⟨env.currentDir, some "", .defaultNew, opts.langArgs, code⟩]
          .success) ∧
    (∀ tok, parseExecArgs defaultOptions tail = .error tok →
      runMain env ("-e" :: code :: tail) =
        .exit [.errMsg (unknownExecutionArgMsg tok), .help] .failure) := by
  constructor
  · intro opts h
    rw [runMain_e_ok env code tail opts h]
    rfl
  · intro tok h
    exact runMain_e_err env code tail tok h

theorem inline_code_verbatim_witness :
    parseExecArgs defaultOptions ["-warnings"] =
      .ok ⟨false, false, true, none⟩ ∧
    runMain sampleEnv ["-e", "--", "-warnings"] =
      .exit [.interpret ⟨"/home/user", some "", .defaultNew, none, "--"⟩] .success :=
  ⟨rfl, (inline_code_verbatim sampleEnv "--" ["-warnings"]).1
    ⟨false, false, true, none⟩ rfl⟩

end LangCli
